import Mathlib

/-!
Verification development for the sysbuilder storage subsystem
(`src/sysbuilder/storage.py`, `src/sysbuilder/exceptions.py`).

The Python code is shallowly embedded: dictionaries become association
lists with Python `dict` semantics (`dget`, `dset`, `dupdate`), raised
exceptions become an explicit error type (`PyErr`), and in-place
mutation with exceptions becomes state-passing functions returning the
state reached when the exception was raised, paired with the optional
error.
-/

/-- JSON-like values appearing in `lsblk`/`losetup` records: a string or
`null` (Python `None`). -/
inductive JVal where
  | s (v : String)
  | null
deriving DecidableEq, Repr

/-- Python exceptions raised by the storage module: the sysbuilder
taxonomy members it uses, plus the builtins `KeyError`, `FileExistsError`,
`FileNotFoundError`, `IndexError`, and an uncaught
`subprocess.CalledProcessError` carrying its exit code. -/
inductive PyErr where
  | blockDeviceError (msg : String)
  | blockDeviceNotFoundError (msg : String)
  | fileSystemError (msg : String)
  | loopDeviceError (msg : String)
  | keyError (msg : String)
  | fileExistsError (msg : String)
  | fileNotFoundError (msg : String)
  | indexError (msg : String)
  | calledProcessError (code : Int)
deriving DecidableEq, Repr

/-- Python `d.get(k)` / `d[k]` lookup on a dict modelled as an
association list: first binding wins (keys are unique in a dict). -/
def dget : List (String × JVal) → String → Option JVal
  | [], _ => none
  | p :: rest, k => if p.1 = k then some p.2 else dget rest k

/-- Python `d[k] = v`: overwrite in place if the key is present
(keeping its position, as dicts do), otherwise append. -/
def dset : List (String × JVal) → String → JVal → List (String × JVal)
  | [], k, v => [(k, v)]
  | p :: rest, k, v =>
    if p.1 = k then (k, v) :: rest else p :: dset rest k v

/-- Python `d.update(kw)`: set every binding of `kw` in order. -/
def dupdate (d kw : List (String × JVal)) : List (String × JVal) :=
  kw.foldl (fun acc p => dset acc p.1 p.2) d

/-- `BlockDevice` state: the `_data` dict and the `_children` list
(`storage.py` lines 455-461). -/
inductive BlockDevice where
  | mk (data : List (String × JVal)) (children : List BlockDevice)

def BlockDevice.data : BlockDevice → List (String × JVal)
  | .mk d _ => d

def BlockDevice.children : BlockDevice → List BlockDevice
  | .mk _ cs => cs

mutual
/-- An incoming keyword-argument dict for `BlockDevice.update`, as
produced by `lsblk`: the flat attributes (the `children` key, when
present, is represented structurally in the `children` field). -/
inductive DevObj where
  | mk (attrs : List (String × JVal)) (children : DevObjList)

/-- The value of an incoming `children` key: a list of nested objects. -/
inductive DevObjList where
  | nil
  | cons (head : DevObj) (tail : DevObjList)
end

def DevObj.attrs : DevObj → List (String × JVal)
  | .mk a _ => a

def DevObj.childList : DevObj → DevObjList
  | .mk _ cs => cs

def DevObjList.toList : DevObjList → List DevObj
  | .nil => []
  | .cons o rest => o :: rest.toList

def DevObjList.ofList : List DevObj → DevObjList
  | [] => .nil
  | o :: rest => .cons o (DevObjList.ofList rest)

/-- The identity keys of `BlockDevice.update`
(`storage.py` line 661: `["path", "back-file", "type"]`). -/
def identityKeys : List String := ["path", "back-file", "type"]

/-- The consistency test of the check loop in `BlockDevice.update`
(`storage.py` lines 659-667): the key is an identity key, is already in
`_data`, and the incoming value differs. -/
def badPair (d : List (String × JVal)) (kv : String × JVal) : Bool :=
  decide (kv.1 ∈ identityKeys) &&
    (match dget d kv.1 with
     | some w => decide (kv.2 ≠ w)
     | none => false)

/-- Scan of `update_children` (`storage.py` lines 652-655): find the
first existing child whose `path` equals the incoming object's `path`,
returning the split (before, match, after).  A scanned child without a
`path` key, or a comparison against an object without one, is a
`KeyError` (Python `child.path` / `obj["path"]`). -/
def scanChildren (po : Option JVal) :
    List BlockDevice →
    Except PyErr (Option (List BlockDevice × BlockDevice × List BlockDevice))
  | [] => .ok none
  | c :: cs =>
    match dget c.data "path" with
    | none => .error (.keyError "path")
    | some pc =>
      match po with
      | none => .error (.keyError "path")
      | some pv =>
        if pc = pv then .ok (some ([], c, cs))
        else
          match scanChildren po cs with
          | .error e => .error e
          | .ok none => .ok none
          | .ok (some (pre, m, post)) => .ok (some (c :: pre, m, post))

mutual
/-- `BlockDevice.update` (`storage.py` lines 631-674): first the
consistency check over all incoming attributes, then reconciliation of
the incoming `children` list, then `self._data.update(kwargs)`.  The
result is the object state when the call returns or raises, paired with
the raised error if any. -/
def BlockDevice.update : BlockDevice → DevObj → BlockDevice × Option PyErr
  | bd, .mk attrs children =>
    match attrs.find? (badPair bd.data) with
    | some kv => (bd, some (.keyError ("Cannot update self with " ++ kv.1)))
    | none =>
      match BlockDevice.updateChildren bd.children children with
      | (cs, some e) => (.mk bd.data cs, some e)
      | (cs, none) => (.mk (dupdate bd.data attrs) cs, none)

/-- The loop `for child in children: update_children(child, self._children)`
(`storage.py` lines 670-672), each step being `update_children`
(lines 647-657): update the first child matching on `path` in place, or
append a freshly constructed `BlockDevice` when no child matches. -/
def BlockDevice.updateChildren :
    List BlockDevice → DevObjList → List BlockDevice × Option PyErr
  | cs, .nil => (cs, none)
  | cs, .cons o rest =>
    let step : List BlockDevice × Option PyErr :=
      match cs with
      | [] =>
        (match BlockDevice.update (BlockDevice.mk [] []) o with
         | (nb, none) => ([nb], none)
         | (_, some e) => ([], some e))
      | c0 :: cs0 =>
        match scanChildren (dget o.attrs "path") (c0 :: cs0) with
        | .error e => (c0 :: cs0, some e)
        | .ok none =>
          (match BlockDevice.update (BlockDevice.mk [] []) o with
           | (nb, none) => (c0 :: cs0 ++ [nb], none)
           | (_, some e) => (c0 :: cs0, some e))
        | .ok (some (pre, m, post)) =>
          match BlockDevice.update m o with
          | (m2, e) => (pre ++ m2 :: post, e)
    match step with
    | (cs2, some e) => (cs2, some e)
    | (cs2, none) => BlockDevice.updateChildren cs2 rest
end

/-- One step of the children-reconciliation loop (`update_children`
applied to a single incoming object), factored out of
`BlockDevice.updateChildren` for the lemmas below. -/
def updateStep (cs : List BlockDevice) (o : DevObj) :
    List BlockDevice × Option PyErr :=
  match cs with
  | [] =>
    (match BlockDevice.update (BlockDevice.mk [] []) o with
     | (nb, none) => ([nb], none)
     | (_, some e) => ([], some e))
  | c0 :: cs0 =>
    match scanChildren (dget o.attrs "path") (c0 :: cs0) with
    | .error e => (c0 :: cs0, some e)
    | .ok none =>
      (match BlockDevice.update (BlockDevice.mk [] []) o with
       | (nb, none) => (c0 :: cs0 ++ [nb], none)
       | (_, some e) => (c0 :: cs0, some e))
    | .ok (some (pre, m, post)) =>
      match BlockDevice.update m o with
      | (m2, e) => (pre ++ m2 :: post, e)

def DevObj.children (o : DevObj) : List DevObj :=
  o.childList.toList

/-- Kernel state of one partition of the disk under test, as `lsblk`
reports it: device path, GPT typecode, and filesystem type (`none`
until formatted). -/
structure KPart where
  path : String
  typecode : String
  fstype : Option String
deriving DecidableEq, Repr

/-- Kernel state of the disk under test (the attached loop device). -/
structure KDisk where
  path : String
  dtype : String
  fstype : Option String
  parts : List KPart
deriving DecidableEq, Repr

/-- An external command invocation (`subprocess.run` argument vector). -/
abbrev Cmd := List String

/-- The external world the Command Layer acts on: the kernel state of
the one device a `Storage` object owns, plus the trace of external
commands run so far (most recent last). -/
structure World where
  disk : KDisk
  trace : List Cmd
deriving DecidableEq, Repr

def optJ : Option String → JVal
  | some v => .s v
  | none => .null

/-- The `lsblk` record of a partition. -/
def partObj (p : KPart) : DevObj :=
  .mk [("path", .s p.path), ("type", .s "part"), ("fstype", optJ p.fstype)] .nil

/-- The `lsblk` record of the disk, children included. -/
def diskObj (d : KDisk) : DevObj :=
  .mk [("path", .s d.path), ("type", .s d.dtype), ("fstype", optJ d.fstype)]
    (DevObjList.ofList (d.parts.map partObj))

/-- Device lookup: what `lsblk <path>` reports in this world, if the
path denotes an existing device. -/
def wFind (w : World) (p : String) : Option DevObj :=
  if p = w.disk.path then some (diskObj w.disk)
  else (w.disk.parts.find? (fun q => q.path == p)).map partObj

def lsblkCmd (p : String) : Cmd := ["lsblk", "--output-all", "--json", p]

def partprobeCmd (p : String) : Cmd := ["partprobe", p]

/-- The `sgdisk` argument vector built by `_BlockDevice.create_partition`
(`storage.py` lines 76-89): `--new n:start:end --typecode n:typecode`. -/
def sgdiskCmd (n s e tc dev : String) : Cmd :=
  ["sgdisk", "--new", n ++ ":" ++ s ++ ":" ++ e, "--typecode", n ++ ":" ++ tc, dev]

def World.addTrace (w : World) (c : Cmd) : World :=
  { w with trace := w.trace ++ [c] }

/-- `_BlockDevice.list_one` (`storage.py` lines 123-145) run against a
nominal world: `lsblk` succeeds on an existing device and exits with
code 32 (mapped to `BlockDeviceNotFoundError`) on a missing one. -/
def wLsblkOne (w : World) (p : String) : World × Except PyErr DevObj :=
  let w2 := w.addTrace (lsblkCmd p)
  match wFind w p with
  | some d => (w2, .ok d)
  | none => (w2, .error (.blockDeviceNotFoundError p))

/-- `_BlockDevice.partprobe` (`storage.py` lines 147-160) run against a
nominal world: the rescan succeeds on an existing device and fails
(mapped to `BlockDeviceError`) otherwise. -/
def wPartprobe (w : World) (p : String) : World × Option PyErr :=
  let w2 := w.addTrace (partprobeCmd p)
  if (wFind w p).isSome then (w2, none)
  else (w2, some (.blockDeviceError ("Unable to probe " ++ p ++ " for partitions.")))

/-- Kernel naming of the n-th partition of a loop device. -/
def partName (d : String) (n : Nat) : String := d ++ "p" ++ toString n

/-- Effect of the `sgdisk --new` invocation: a new, unformatted
partition with the given typecode appended to the partition table. -/
def wSgdisk (w : World) (dev : String) (n : Nat) (s e tc : String) :
    World × Option PyErr :=
  let w2 := w.addTrace (sgdiskCmd (toString n) s e tc dev)
  if dev = w.disk.path then
    ({ w2 with disk := { w2.disk with
        parts := w2.disk.parts ++ [⟨partName dev n, tc, none⟩] } }, none)
  else
    (w2, some (.blockDeviceError
      ("Cannot create partition " ++ toString n ++ " on " ++ dev ++ "!")))

/-- `_BlockDevice.create_partition` (`storage.py` lines 31-93):
rescan, list the device, count its children, and insert partition
number (count + 1) with that same ordinal in the typecode argument. -/
def create_partition (w : World) (devpath s e tc : String) :
    World × Option PyErr :=
  match wPartprobe w devpath with
  | (w1, some er) => (w1, some er)
  | (w1, none) =>
    match wLsblkOne w1 devpath with
    | (w2, .error er) => (w2, some er)
    | (w2, .ok dev) =>
      wSgdisk w2 devpath (dev.children.length + 1) s e tc

/-- A layout entry's `filesystem` object (`config` shape § 6 of the
spec; consumed by `Storage.format` at `storage.py` lines 721-729). -/
structure FsSpec where
  ftype : String
  label : Option String
  labelFlag : String
  args : List String
  mountpoint : String
deriving DecidableEq, Repr

/-- A `storage.layout` entry. -/
structure LayoutEntry where
  pstart : String
  pend : String
  typecode : String
  filesystem : FsSpec
deriving DecidableEq, Repr

/-- The Python test `value is not None` on a dict lookup (`d.get(k)`). -/
def jPresent : Option JVal → Bool
  | some (.s _) => true
  | _ => false

/-- The `mkfs`/`mkswap` argument vector built by `_FileSystem.create`
(`storage.py` lines 183-191). -/
def mkfsCmdOf (fs : FsSpec) (devpath : String) : Cmd :=
  (if fs.ftype = "swap" then ["mkswap"] else ["mkfs", "--type", fs.ftype])
    ++ (match fs.label with
        | none => []
        | some l => [fs.labelFlag, l])
    ++ fs.args ++ [devpath]

/-- Effect of running the filesystem-creation command: the device's
kernel-reported filesystem type becomes the created type. -/
def wRunMkfs (w : World) (c : Cmd) (devpath ftype : String) :
    World × Option PyErr :=
  let w2 := w.addTrace c
  if devpath = w2.disk.path then
    ({ w2 with disk := { w2.disk with fstype := some ftype } }, none)
  else if w2.disk.parts.any (fun q => q.path == devpath) then
    ({ w2 with disk := { w2.disk with
        parts := w2.disk.parts.map (fun q =>
          if q.path == devpath then { q with fstype := some ftype } else q) } },
      none)
  else
    (w2, some (.fileSystemError ("Cannot create " ++ ftype ++ " on " ++ devpath)))

/-- `_FileSystem.create` (`storage.py` lines 166-198): list the device,
refuse (builtin `FileExistsError`) if a filesystem is already present,
then run the creation command. -/
def fsCreate (w : World) (devpath : String) (fs : FsSpec) :
    World × Option PyErr :=
  match wLsblkOne w devpath with
  | (w1, .error e) => (w1, some e)
  | (w1, .ok d) =>
    if jPresent (dget d.attrs "fstype") then
      (w1, some (.fileExistsError devpath))
    else wRunMkfs w1 (mkfsCmdOf fs devpath) devpath fs.ftype

/-- `self.path` (`storage.py` lines 524-527), as an `Option`: the
source raises `KeyError` when `_data` has no string path. -/
def BlockDevice.pathStr (bd : BlockDevice) : Option String :=
  match dget bd.data "path" with
  | some (.s p) => some p
  | _ => none

/-- `BlockDevice.sync` (`storage.py` lines 617-621): re-poll the
device's path and merge the result via `update`. -/
def BlockDevice.sync (bd : BlockDevice) (w : World) :
    (BlockDevice × World) × Option PyErr :=
  match bd.pathStr with
  | some p =>
    (match wLsblkOne w p with
     | (w2, .error e) => ((bd, w2), some e)
     | (w2, .ok d) =>
       match BlockDevice.update bd d with
       | (bd2, e) => ((bd2, w2), e))
  | none => ((bd, w), some (.keyError "path"))

/-- `BlockDevice.add_filesystem` (`storage.py` lines 529-555): sync,
refuse with `BlockDeviceError` when a filesystem type is present,
otherwise create the filesystem and sync again. -/
def BlockDevice.add_filesystem (bd : BlockDevice) (w : World) (fs : FsSpec) :
    (BlockDevice × World) × Option PyErr :=
  match bd.sync w with
  | (st, some e) => (st, some e)
  | ((bd1, w1), none) =>
    if jPresent (dget bd1.data "fstype") then
      ((bd1, w1), some (.blockDeviceError
        ("Cannot format a formatted block device: " ++ bd1.pathStr.getD "" ++ ".")))
    else
      match fsCreate w1 (bd1.pathStr.getD "") fs with
      | (w2, some e) => ((bd1, w2), some e)
      | (w2, none) => bd1.sync w2

/-- `BlockDevice.add_part` (`storage.py` lines 557-598): sync, refuse
with `BlockDeviceError` unless the device type is `disk` or `loop`,
otherwise create the partition and sync again. -/
def BlockDevice.add_part (bd : BlockDevice) (w : World) (s e tc : String) :
    (BlockDevice × World) × Option PyErr :=
  match bd.sync w with
  | (st, some er) => (st, some er)
  | ((bd1, w1), none) =>
    match dget bd1.data "type" with
    | none => ((bd1, w1), some (.keyError "type"))
    | some t =>
      if t = JVal.s "disk" ∨ t = JVal.s "loop" then
        match create_partition w1 (bd1.pathStr.getD "") s e tc with
        | (w2, some er) => ((bd1, w2), some er)
        | (w2, none) => bd1.sync w2
      else ((bd1, w1), some (.blockDeviceError "Only disks may be partitioned."))

/-- The inner loop of `Storage.format` (`storage.py` lines 723-729):
`for child in self._device._children: child.add_filesystem(...)` —
note it formats every child, not only the unformatted one. -/
def Storage.formatChildren : List BlockDevice → World → FsSpec →
    (List BlockDevice × World) × Option PyErr
  | [], w, _ => (([], w), none)
  | c :: rest, w, fs =>
    match c.add_filesystem w fs with
    | ((c2, w2), some e) => ((c2 :: rest, w2), some e)
    | ((c2, w2), none) =>
      match Storage.formatChildren rest w2 fs with
      | ((rest2, w3), e) => ((c2 :: rest2, w3), e)

/-- `Storage.format` (`storage.py` lines 699-729): for each layout
entry, `add_part` then the child-formatting loop. -/
def Storage.format : List LayoutEntry → BlockDevice → World →
    (BlockDevice × World) × Option PyErr
  | [], bd, w => ((bd, w), none)
  | entry :: rest, bd, w =>
    match bd.add_part w entry.pstart entry.pend entry.typecode with
    | (st, some e) => (st, some e)
    | ((bd1, w1), none) =>
      match Storage.formatChildren bd1.children w1 entry.filesystem with
      | ((cs, w2), some e) => ((.mk bd1.data cs, w2), some e)
      | ((cs, w2), none) => Storage.format rest (.mk bd1.data cs) w2

/-- Parsed result of one `lsblk` invocation, as `_BlockDevice.list_one`
and `list_all` observe it: a parsed `blockdevices` array, undecodable
JSON, or a `subprocess.CalledProcessError` with the process exit code. -/
inductive LsblkRun where
  | ok (devs : List DevObj)
  | badJson
  | fail (code : Int)

/-- Exit-code dispatch of `_BlockDevice.list_one` (`storage.py` lines
123-145): exit code 32 becomes `BlockDeviceNotFoundError`, any other
`CalledProcessError` is re-raised as is; undecodable JSON becomes
`BlockDeviceError`; an empty array is an uncaught `IndexError`. -/
def list_one (devpath : String) (r : LsblkRun) : Except PyErr DevObj :=
  match r with
  | .fail c =>
    if c = 32 then .error (.blockDeviceNotFoundError devpath)
    else .error (.calledProcessError c)
  | .badJson => .error (.blockDeviceError ("Cannot find " ++ devpath))
  | .ok devs =>
    match devs with
    | d :: _ => .ok d
    | [] => .error (.indexError "blockdevices")

/-- Exit-code dispatch of `_BlockDevice.list_all` (`storage.py` lines
96-121): exit code 64 becomes `BlockDeviceError`, any other
`CalledProcessError` is re-raised as is. -/
def list_all (r : LsblkRun) : Except PyErr (List DevObj) :=
  match r with
  | .fail c =>
    if c = 64 then .error (.blockDeviceError "Unable to retrieve block devices.")
    else .error (.calledProcessError c)
  | .badJson => .error (.blockDeviceError "Unable to retrieve block devices.")
  | .ok devs => .ok devs

/-- Result of one external process run that produces no parsed output. -/
inductive RunOutcome where
  | ok
  | fail (code : Int)

/-- Error dispatch of `_BlockDevice.partprobe` (`storage.py` lines
147-160): any failure of the rescan becomes `BlockDeviceError`. -/
def partprobe (devpath : String) (r : RunOutcome) : Option PyErr :=
  match r with
  | .ok => none
  | .fail _ =>
    some (.blockDeviceError ("Unable to probe " ++ devpath ++ " for partitions."))

/-- The exception taxonomy of `exceptions.py`: each class defined there
paired with its direct base class. -/
def sysbuilderExceptions : List (String × String) :=
  [("_SysBuilderError", "Exception"),
   ("BlockDeviceExistsError", "_SysBuilderError"),
   ("BlockDeviceError", "_SysBuilderError"),
   ("BlockDeviceNotFoundError", "_SysBuilderError"),
   ("LoopDeviceExistsError", "_SysBuilderError"),
   ("LoopDeviceError", "_SysBuilderError"),
   ("LoopDeviceNotFoundError", "_SysBuilderError"),
   ("FileSystemExistsError", "_SysBuilderError"),
   ("FileSystemError", "_SysBuilderError"),
   ("FileSystemNotFoundError", "_SysBuilderError")]

/-- The Python class name of each modelled exception. -/
def pyErrClass : PyErr → String
  | .blockDeviceError _ => "BlockDeviceError"
  | .blockDeviceNotFoundError _ => "BlockDeviceNotFoundError"
  | .fileSystemError _ => "FileSystemError"
  | .loopDeviceError _ => "LoopDeviceError"
  | .keyError _ => "KeyError"
  | .fileExistsError _ => "FileExistsError"
  | .fileNotFoundError _ => "FileNotFoundError"
  | .indexError _ => "IndexError"
  | .calledProcessError _ => "CalledProcessError"

/-- Whether a class of `exceptions.py` derives directly from the root
storage error `_SysBuilderError`. -/
def derivesFromRoot (c : String) : Bool :=
  match sysbuilderExceptions.find? (fun p => p.1 == c) with
  | some p => p.2 == "_SysBuilderError"
  | none => false

/-- Character-lexicographic comparison of strings, written out so that
it evaluates in the kernel. -/
def charListLe : List Char → List Char → Bool
  | [], _ => true
  | _ :: _, [] => false
  | a :: as, b :: bs =>
    if a = b then charListLe as bs
    else decide (a < b)

def strLe (s t : String) : Bool := charListLe s.data t.data

/-- Insertion into a list sorted by a string key (lexicographic). -/
def insertByKey (key : α → String) (a : α) : List α → List α
  | [] => [a]
  | b :: bs => if strLe (key a) (key b) then a :: b :: bs else b :: insertByKey key a bs

/-- Insertion sort by a string key (lexicographic). -/
def sortByKey (key : α → String) : List α → List α
  | [] => []
  | a :: as => insertByKey key a (sortByKey key as)

/-- A host mount path anchored under the orchestrator's scratch root. -/
def hostMountPath (root mp : String) : String := root ++ mp

def mountCmd (dev mp : String) : Cmd := ["mount", dev, mp]

def setData (bd : BlockDevice) (k : String) (v : JVal) : BlockDevice :=
  .mk (dset bd.data k v) bd.children

/-- Modelled from the spec: `Storage.mount` is declared in
`storage.py` (lines 731-733) with a docstring and no body — the
implementation is missing from the source tree.  Per spec § 4.3, the
orchestrator computes for every non-swap layout entry an absolute host
mount path anchored under a private scratch root, sorts those paths
lexicographically and mounts the corresponding child device in that
order, and tags swap-designated entries with the sentinel
`host_mountpoint == "swap"` without invoking mount.  The model returns
the mount invocations in order and the children with their
`host_mountpoint` tags. -/
def Storage.mount (root : String) (layout : List LayoutEntry)
    (children : List BlockDevice) : List Cmd × List BlockDevice :=
  let pairs := layout.zip children
  let nonswap := pairs.filter (fun pc => pc.1.filesystem.mountpoint != "swap")
  let sortedPairs :=
    sortByKey (fun pc => hostMountPath root pc.1.filesystem.mountpoint) nonswap
  let cmds := sortedPairs.map (fun pc =>
    mountCmd (pc.2.pathStr.getD "") (hostMountPath root pc.1.filesystem.mountpoint))
  let tagged := pairs.map (fun pc =>
    if pc.1.filesystem.mountpoint = "swap" then
      setData pc.2 "host_mountpoint" (.s "swap")
    else
      setData pc.2 "host_mountpoint" (.s (hostMountPath root pc.1.filesystem.mountpoint)))
  (cmds, tagged)

/-- The test configuration's three-entry layout
(`tests/test_storage.py`): EFI vfat, swap, ext4 root. -/
def layout3 : List LayoutEntry :=
  [⟨"", "+100M", "ef00", ⟨"vfat", some "EFI", "-n", ["-F", "32"], "/efi"⟩⟩,
   ⟨"", "+4G", "8200", ⟨"swap", some "swap", "-L", [], "swap"⟩⟩,
   ⟨"", "", "8300", ⟨"ext4", some "root", "-L", [], "/"⟩⟩]

/-- The root `BlockDevice` of a freshly attached empty sparse image, as
`BlockDevice.as_image_file` leaves it: the `lsblk` record of the loop
device merged with the `losetup` backing-file attribute. -/
def freshLoopBD : BlockDevice :=
  .mk [("path", .s "/dev/loop0"), ("type", .s "loop"), ("fstype", .null),
       ("back-file", .s "/tmp/disk.img")] []

/-- The world of a freshly attached empty sparse image. -/
def freshLoopWorld : World :=
  ⟨⟨"/dev/loop0", "loop", none, []⟩, []⟩

/-- A reconciled device with one known child, used to exercise
`BlockDevice.update`. -/
def nestedBD : BlockDevice :=
  .mk [("path", .s "/dev/loop0"), ("type", .s "loop")]
    [.mk [("path", .s "/dev/loop0p1"), ("type", .s "part")] []]

/-- An incoming record whose children list holds a new entry followed
by an entry conflicting with the existing child's identity. -/
def nestedConflictObj : DevObj :=
  .mk [("path", .s "/dev/loop0")]
    (.cons (.mk [("path", .s "/dev/loop0p9")] .nil)
      (.cons (.mk [("path", .s "/dev/loop0p1"), ("type", .s "disk")] .nil) .nil))

/-- An incoming record holding one child matching the existing child of
`nestedBD` (to be updated in place) and one new child (appended). -/
def freshDiskObjTwoKids : DevObj :=
  .mk [("path", .s "/dev/loop0"), ("type", .s "loop")]
    (.cons (.mk [("path", .s "/dev/loop0p1"), ("fstype", .s "vfat")] .nil)
      (.cons (.mk [("path", .s "/dev/loop0p2")] .nil) .nil))

/-- Filesystem-creation invocations (`mkfs`/`mkswap`) in a trace. -/
def isMkfsCmd (c : Cmd) : Bool :=
  match c.head? with
  | some h => h == "mkfs" || h == "mkswap"
  | none => false

/-- Partition-table edit invocations (`sgdisk`) in a trace. -/
def isSgdiskCmd (c : Cmd) : Bool :=
  match c.head? with
  | some h => h == "sgdisk"
  | none => false

/-- Kernel state after one partition has been created and formatted. -/
def fmtWorld : World :=
  ⟨⟨"/dev/loop0", "loop", none, [⟨"/dev/loop0p1", "ef00", some "vfat"⟩]⟩, []⟩

/-- The `BlockDevice` of that formatted partition, already synced. -/
def fmtPartBD : BlockDevice :=
  .mk [("path", .s "/dev/loop0p1"), ("type", .s "part"),
       ("fstype", .s "vfat")] []

/-- A four-entry layout whose mountpoints arrive unsorted and include a
swap entry: /var, swap, /, /var/log. -/
def mountLayout4 : List LayoutEntry :=
  [⟨"", "+4G", "8300", ⟨"ext4", none, "-L", [], "/var"⟩⟩,
   ⟨"", "+4G", "8200", ⟨"swap", none, "-L", [], "swap"⟩⟩,
   ⟨"", "+1G", "ef00", ⟨"vfat", none, "-L", [], "/"⟩⟩,
   ⟨"", "", "8300", ⟨"ext4", none, "-L", [], "/var/log"⟩⟩]

/-- The four partition devices of that layout. -/
def mountKids4 : List BlockDevice :=
  [.mk [("path", .s "/dev/loop0p1"), ("type", .s "part")] [],
   .mk [("path", .s "/dev/loop0p2"), ("type", .s "part")] [],
   .mk [("path", .s "/dev/loop0p3"), ("type", .s "part")] [],
   .mk [("path", .s "/dev/loop0p4"), ("type", .s "part")] []]

/-- First-defined alternative on options (`Option.orElse` without the
thunk, for smoother rewriting). -/
def optOr : Option JVal → Option JVal → Option JVal
  | some v, _ => some v
  | none, b => b

/-- A dict rendered as an association list has pairwise-distinct keys. -/
def nodupKeys (l : List (String × JVal)) : Prop :=
  (l.map Prod.fst).Nodup

instance (l : List (String × JVal)) : Decidable (nodupKeys l) := by
  unfold nodupKeys; infer_instance

example :
    BlockDevice.update (.mk [] []) (.mk [("path", .s "/dev/loop0")] .nil)
      = (.mk [("path", .s "/dev/loop0")] [], none) := rfl

example :
    (BlockDevice.update
      (.mk [("path", .s "/dev/loop0"), ("type", .s "loop")] [])
      (.mk [("path", .s "/dev/loop0"), ("type", .s "disk")] .nil)).2
      = some (.keyError "Cannot update self with type") := rfl

/-! ## Dictionary lemmas -/

theorem optOr_none_right (a : Option JVal) : optOr a none = a := by
  cases a <;> rfl

theorem optOr_assoc (a b c : Option JVal) :
    optOr (optOr a b) c = optOr a (optOr b c) := by
  cases a <;> rfl

theorem dget_append (a b : List (String × JVal)) (k : String) :
    dget (a ++ b) k = optOr (dget a k) (dget b k) := by
  induction a with
  | nil => rfl
  | cons p rest ih =>
    by_cases h : p.1 = k
    · simp [dget, h, optOr]
    · simp [dget, h, ih]

theorem dget_dset (d : List (String × JVal)) (k0 k : String) (v : JVal) :
    dget (dset d k0 v) k = if k0 = k then some v else dget d k := by
  induction d with
  | nil => simp [dset, dget]
  | cons p rest ih =>
    by_cases h : p.1 = k0
    · by_cases h2 : k0 = k
      · simp [dset, dget, h, h2]
      · have hpk : ¬ p.1 = k := by rw [h]; exact h2
        simp [dset, dget, h, h2, hpk]
    · by_cases h2 : p.1 = k
      · have h3 : ¬ k0 = k := fun hc => h (by rw [hc, h2])
        have h4 : ¬ k = k0 := fun hc => h3 hc.symm
        simp [dset, dget, h, h2, h3, h4]
      · simp [dset, dget, h, h2, ih]

theorem dget_mem {l : List (String × JVal)} {k : String} {v : JVal}
    (h : dget l k = some v) : (k, v) ∈ l := by
  induction l with
  | nil => simp [dget] at h
  | cons p rest ih =>
    by_cases hp : p.1 = k
    · simp [dget, hp] at h
      cases p with
      | mk k1 v1 => simp_all
    · simp [dget, hp] at h
      exact List.mem_cons_of_mem _ (ih h)

theorem dget_eq_none_of_not_mem {l : List (String × JVal)} {k : String}
    (h : k ∉ l.map Prod.fst) : dget l k = none := by
  induction l with
  | nil => rfl
  | cons p rest ih =>
    rw [List.map_cons, List.mem_cons] at h
    push_neg at h
    have h1 : ¬ p.1 = k := fun hc => h.1 hc.symm
    simp only [dget, if_neg h1]
    exact ih h.2

theorem dget_reverse_of_nodup {l : List (String × JVal)} (h : nodupKeys l)
    (k : String) : dget l.reverse k = dget l k := by
  induction l with
  | nil => rfl
  | cons p rest ih =>
    unfold nodupKeys at h
    rw [List.map_cons, List.nodup_cons] at h
    rw [List.reverse_cons, dget_append, ih h.2]
    by_cases hp : p.1 = k
    · have hnone : dget rest k = none := by
        apply dget_eq_none_of_not_mem
        rw [← hp]
        exact h.1
      simp [dget, hp, hnone, optOr]
    · simp [dget, hp, optOr_none_right]

theorem dget_dupdate (d kw : List (String × JVal)) (k : String) :
    dget (dupdate d kw) k = optOr (dget kw.reverse k) (dget d k) := by
  induction kw generalizing d with
  | nil => rfl
  | cons q rest ih =>
    show dget (dupdate (dset d q.1 q.2) rest) k = _
    rw [ih, List.reverse_cons, dget_append, optOr_assoc, dget_dset]
    by_cases hq : q.1 = k <;> simp [dget, hq, optOr]

/-! ## Unfolding lemmas for `BlockDevice.update` -/

theorem update_eq (bd : BlockDevice) (attrs : List (String × JVal))
    (ch : DevObjList) :
    BlockDevice.update bd (.mk attrs ch) =
      match attrs.find? (badPair bd.data) with
      | some kv => (bd, some (.keyError ("Cannot update self with " ++ kv.1)))
      | none =>
        match BlockDevice.updateChildren bd.children ch with
        | (cs, some e) => (.mk bd.data cs, some e)
        | (cs, none) => (.mk (dupdate bd.data attrs) cs, none) := rfl

theorem updateChildren_cons (cs : List BlockDevice) (o : DevObj)
    (rest : DevObjList) :
    BlockDevice.updateChildren cs (.cons o rest) =
      (match updateStep cs o with
       | (cs2, some e) => (cs2, some e)
       | (cs2, none) => BlockDevice.updateChildren cs2 rest) := rfl

/-! ## Identity preservation under reconciliation -/

theorem update_identity_mismatch (bd : BlockDevice)
    (attrs : List (String × JVal)) (ch : DevObjList) (k : String)
    (v w0 : JVal) (hmem : (k, v) ∈ attrs) (hid : k ∈ identityKeys)
    (hold : dget bd.data k = some w0) (hne : v ≠ w0) :
    (BlockDevice.update bd (.mk attrs ch)).1 = bd ∧
      ∃ m, (BlockDevice.update bd (.mk attrs ch)).2 = some (.keyError m) := by
  have hbad : badPair bd.data (k, v) = true := by
    simp [badPair, hold, hid, hne]
  have hsome : (attrs.find? (badPair bd.data)).isSome :=
    List.find?_isSome.mpr ⟨(k, v), hmem, hbad⟩
  obtain ⟨kv, hkv⟩ := Option.isSome_iff_exists.mp hsome
  rw [update_eq, hkv]
  exact ⟨rfl, _, rfl⟩

theorem update_success_identity {bd bd' : BlockDevice}
    {attrs : List (String × JVal)} {ch : DevObjList}
    (h : BlockDevice.update bd (.mk attrs ch) = (bd', none))
    (k : String) (w0 : JVal) (hid : k ∈ identityKeys)
    (hold : dget bd.data k = some w0) :
    dget bd'.data k = some w0 := by
  rw [update_eq] at h
  cases hf : attrs.find? (badPair bd.data) with
  | some kv => rw [hf] at h; simp at h
  | none =>
    rw [hf] at h
    cases hch : BlockDevice.updateChildren bd.children ch with
    | mk cs e =>
      rw [hch] at h
      cases e with
      | some er => simp at h
      | none =>
        simp only [Prod.mk.injEq] at h
        rw [← h.1]
        show dget (dupdate bd.data attrs) k = some w0
        rw [dget_dupdate]
        cases hr : dget attrs.reverse k with
        | none => simp [optOr, hold]
        | some v2 =>
          have hm : (k, v2) ∈ attrs := List.mem_reverse.mp (dget_mem hr)
          have hnb := List.find?_eq_none.mp hf (k, v2) hm
          have hv : v2 = w0 := by
            by_contra hvv
            exact hnb (by simp [badPair, hold, hid, hvv])
          rw [hv]
          rfl

/-- C3: for every `BlockDevice` node and every reconciliation via
`update()`/`sync()`: a merge passing a different value for an observed
identity attribute (path, kind, backing file) raises a consistency
error (`KeyError`) instead of overwriting it; a successful merge leaves
observed identity attributes unchanged; hence after any successful
`sync()` the identity attributes equal their previously observed
values. -/
theorem c3_identity_never_changes :
    (∀ (bd : BlockDevice) (attrs : List (String × JVal)) (ch : DevObjList)
        (k : String) (v w0 : JVal), (k, v) ∈ attrs → k ∈ identityKeys →
        dget bd.data k = some w0 → v ≠ w0 →
        (BlockDevice.update bd (.mk attrs ch)).1 = bd ∧
          ∃ m, (BlockDevice.update bd (.mk attrs ch)).2 = some (.keyError m)) ∧
    (∀ (bd bd' : BlockDevice) (obj : DevObj),
        BlockDevice.update bd obj = (bd', none) →
        ∀ (k : String) (w0 : JVal), k ∈ identityKeys →
        dget bd.data k = some w0 → dget bd'.data k = some w0) ∧
    (∀ (bd : BlockDevice) (w : World) (st : BlockDevice × World),
        BlockDevice.sync bd w = (st, none) →
        ∀ (k : String) (w0 : JVal), k ∈ identityKeys →
        dget bd.data k = some w0 → dget st.1.data k = some w0) := by
  refine ⟨update_identity_mismatch, ?_, ?_⟩
  · intro bd bd' obj h k w0 hid hold
    cases obj with
    | mk attrs ch => exact update_success_identity h k w0 hid hold
  · intro bd w st h k w0 hid hold
    unfold BlockDevice.sync at h
    split at h
    · rename_i p hp
      split at h
      · simp at h
      · rename_i w2 d hw
        cases hu : BlockDevice.update bd d with
        | mk bd2 e2 =>
          rw [hu] at h
          cases e2 with
          | some er => simp at h
          | none =>
            simp only [Prod.mk.injEq, and_true] at h
            rw [← h]
            show dget bd2.data k = some w0
            cases d with
            | mk attrs ch => exact update_success_identity hu k w0 hid hold
    · simp at h

/-- Witness for C3: a merge renaming the device path is refused and
leaves the node unchanged; a successful merge adding a filesystem type
keeps the observed path. -/
theorem c3_identity_never_changes_witness :
    ((BlockDevice.update freshLoopBD
        (.mk [("path", .s "/dev/loop1")] .nil)).1 = freshLoopBD ∧
      ∃ m, (BlockDevice.update freshLoopBD
        (.mk [("path", .s "/dev/loop1")] .nil)).2 = some (.keyError m)) ∧
    dget (BlockDevice.update freshLoopBD
        (.mk [("path", .s "/dev/loop0"), ("fstype", .s "ext4")] .nil)).1.data
        "path" = some (.s "/dev/loop0") := by
  constructor
  · exact c3_identity_never_changes.1 freshLoopBD _ _ "path" (.s "/dev/loop1")
      (.s "/dev/loop0") (by decide) (by decide) (by rfl) (by decide)
  · exact c3_identity_never_changes.2.1 freshLoopBD
      ((BlockDevice.update freshLoopBD
        (.mk [("path", .s "/dev/loop0"), ("fstype", .s "ext4")] .nil)).1)
      (.mk [("path", .s "/dev/loop0"), ("fstype", .s "ext4")] .nil)
      (by rfl) "path" (.s "/dev/loop0") (by decide) (by rfl)

/-- C9 (as stated) is false: an update whose incoming children list
holds a new entry followed by an identity-conflicting entry raises the
consistency `KeyError`, yet the node's children list has grown from one
to two entries — the check precedes mutation only for the node's own
attributes, not for nested child reconciliation. -/
theorem c9_counterexample :
    (BlockDevice.update nestedBD nestedConflictObj).2
        = some (.keyError "Cannot update self with type") ∧
    (BlockDevice.update nestedBD nestedConflictObj).1.children.length = 2 ∧
    nestedBD.children.length = 1 :=
  ⟨rfl, rfl, rfl⟩

/-- C9 (amended): the identity-key consistency check over the node's
own incoming attributes runs before any mutation, so when `update`
raises because of the node's own identity mismatch, the node's
attribute map and children list are exactly as they were before the
call; an error raised while reconciling the incoming children list may
leave earlier incoming entries already applied. -/
theorem c9_update_atomic_for_own_attributes (bd : BlockDevice)
    (attrs : List (String × JVal)) (ch : DevObjList) (k : String)
    (v w0 : JVal) (hmem : (k, v) ∈ attrs) (hid : k ∈ identityKeys)
    (hold : dget bd.data k = some w0) (hne : v ≠ w0) :
    (BlockDevice.update bd (.mk attrs ch)).1.data = bd.data ∧
    (BlockDevice.update bd (.mk attrs ch)).1.children = bd.children ∧
    ∃ m, (BlockDevice.update bd (.mk attrs ch)).2 = some (.keyError m) := by
  obtain ⟨h1, h2⟩ := update_identity_mismatch bd attrs ch k v w0 hmem hid hold hne
  exact ⟨by rw [h1], by rw [h1], h2⟩

/-- Witness for C9 (amended): refusing a path change leaves data and
children untouched. -/
theorem c9_update_atomic_for_own_attributes_witness :
    (BlockDevice.update nestedBD
        (.mk [("path", .s "/dev/loop7")] .nil)).1.data = nestedBD.data ∧
    (BlockDevice.update nestedBD
        (.mk [("path", .s "/dev/loop7")] .nil)).1.children = nestedBD.children ∧
    ∃ m, (BlockDevice.update nestedBD
        (.mk [("path", .s "/dev/loop7")] .nil)).2 = some (.keyError m) :=
  c9_update_atomic_for_own_attributes nestedBD _ _ "path" (.s "/dev/loop7")
    (.s "/dev/loop0") (by decide) (by decide) (by rfl) (by decide)

/-! ## Children are grow-only under reconciliation -/

theorem scanChildren_split {po : Option JVal} {cs pre post : List BlockDevice}
    {m : BlockDevice}
    (h : scanChildren po cs = .ok (some (pre, m, post))) :
    cs = pre ++ m :: post ∧ dget m.data "path" = po ∧
      (∀ c ∈ pre, dget c.data "path" ≠ po) ∧ ∃ pv, po = some pv := by
  induction cs generalizing pre m post with
  | nil => simp [scanChildren] at h
  | cons c rest ih =>
    unfold scanChildren at h
    cases hc : dget c.data "path" with
    | none => rw [hc] at h; simp at h
    | some pc =>
      rw [hc] at h
      dsimp only at h
      cases po with
      | none => simp at h
      | some pv =>
        dsimp only at h
        by_cases he : pc = pv
        · rw [if_pos he] at h
          simp only [Except.ok.injEq, Option.some.injEq, Prod.mk.injEq] at h
          obtain ⟨h1, h2, h3⟩ := h
          subst h1; subst h2; subst h3
          refine ⟨rfl, by rw [hc, he], by simp, pv, rfl⟩
        · rw [if_neg he] at h
          cases hs : scanChildren (some pv) rest with
          | error e => rw [hs] at h; simp at h
          | ok op =>
            rw [hs] at h
            cases op with
            | none => simp at h
            | some t =>
              obtain ⟨pre2, m2, post2⟩ := t
              simp only [Except.ok.injEq, Option.some.injEq, Prod.mk.injEq] at h
              obtain ⟨h1, h2, h3⟩ := h
              obtain ⟨ih1, ih2, ih3, ih4⟩ := ih hs
              subst h1; subst h2; subst h3
              refine ⟨by rw [ih1]; rfl, ih2, ?_, pv, rfl⟩
              intro x hx
              rcases List.mem_cons.mp hx with hxc | hxm
              · subst hxc
                rw [hc]
                intro hcon
                exact he (Option.some.injEq .. ▸ hcon)
              · exact ih3 x hxm

theorem update_path_stable (c : BlockDevice) (o : DevObj)
    (hwf : nodupKeys o.attrs) (p0 : JVal)
    (ho : dget o.attrs "path" = some p0)
    (hc : dget c.data "path" = some p0) :
    dget (BlockDevice.update c o).1.data "path" = some p0 := by
  cases o with
  | mk attrs ch =>
    rw [update_eq]
    cases hf : attrs.find? (badPair c.data) with
    | some kv => exact hc
    | none =>
      cases hch : BlockDevice.updateChildren c.children ch with
      | mk cs e =>
        cases e with
        | some er => exact hc
        | none =>
          show dget (dupdate c.data attrs) "path" = some p0
          have hwf2 : nodupKeys attrs := hwf
          have ho2 : dget attrs "path" = some p0 := ho
          rw [dget_dupdate, dget_reverse_of_nodup hwf2, ho2]
          rfl

theorem getElem_shape_stable {pre post : List BlockDevice} {m m2 : BlockDevice}
    (hp : dget m2.data "path" = dget m.data "path") :
    ∀ i (hi : i < (pre ++ m :: post).length)
      (hi2 : i < (pre ++ m2 :: post).length),
      dget ((pre ++ m2 :: post)[i]).data "path"
        = dget ((pre ++ m :: post)[i]).data "path" := by
  induction pre with
  | nil =>
    intro i hi hi2
    cases i with
    | zero => simpa using hp
    | succ j => simp
  | cons a pre ih =>
    intro i hi hi2
    cases i with
    | zero => rfl
    | succ j =>
      simp only [List.cons_append, List.getElem_cons_succ]
      exact ih j (by simpa using hi) (by simpa using hi2)

theorem getElem_shape_untouched {pre post : List BlockDevice}
    {m m2 : BlockDevice} :
    ∀ i (hi : i < (pre ++ m :: post).length)
      (hi2 : i < (pre ++ m2 :: post).length),
      dget ((pre ++ m :: post)[i]).data "path" ≠ dget m.data "path" →
      (pre ++ m2 :: post)[i] = (pre ++ m :: post)[i] := by
  induction pre with
  | nil =>
    intro i hi hi2 hne
    cases i with
    | zero => exact absurd (by simp) hne
    | succ j => simp
  | cons a pre ih =>
    intro i hi hi2 hne
    cases i with
    | zero => rfl
    | succ j =>
      simp only [List.cons_append, List.getElem_cons_succ] at hne ⊢
      exact ih j (by simpa using hi) (by simpa using hi2) hne

theorem updateStep_stable (cs : List BlockDevice) (o : DevObj)
    (hwf : nodupKeys o.attrs) :
    cs.length ≤ (updateStep cs o).1.length ∧
    (∀ i (hi : i < cs.length) (hi2 : i < (updateStep cs o).1.length),
      dget ((updateStep cs o).1[i]).data "path" = dget (cs[i]).data "path") ∧
    (∀ i (hi : i < cs.length) (hi2 : i < (updateStep cs o).1.length),
      dget (cs[i]).data "path" ≠ dget o.attrs "path" →
      (updateStep cs o).1[i] = cs[i]) := by
  cases cs with
  | nil =>
    exact ⟨Nat.zero_le _, fun i hi => absurd hi (by simp),
      fun i hi => absurd hi (by simp)⟩
  | cons c0 cs0 =>
    cases hs : scanChildren (dget o.attrs "path") (c0 :: cs0) with
    | error e =>
      have hrw : updateStep (c0 :: cs0) o = (c0 :: cs0, some e) := by
        unfold updateStep; dsimp only; rw [hs]
      rw [hrw]
      exact ⟨le_refl _, fun i hi hi2 => rfl, fun i hi hi2 _ => rfl⟩
    | ok op =>
      cases op with
      | none =>
        cases hn : BlockDevice.update (BlockDevice.mk [] []) o with
        | mk nb e =>
          cases e with
          | none =>
            have hrw : updateStep (c0 :: cs0) o = ((c0 :: cs0) ++ [nb], none) := by
              unfold updateStep; dsimp only; rw [hs]; dsimp only; rw [hn]
            rw [hrw]
            refine ⟨by simp, ?_, ?_⟩
            · intro i hi hi2
              rw [List.getElem_append_left hi]
            · intro i hi hi2 _
              rw [List.getElem_append_left hi]
          | some er =>
            have hrw : updateStep (c0 :: cs0) o = (c0 :: cs0, some er) := by
              unfold updateStep; dsimp only; rw [hs]; dsimp only; rw [hn]
            rw [hrw]
            exact ⟨le_refl _, fun i hi hi2 => rfl, fun i hi hi2 _ => rfl⟩
      | some t =>
        obtain ⟨pre, m, post⟩ := t
        obtain ⟨hsplit, hmpath, hpre, pv, hpv⟩ := scanChildren_split hs
        cases hu : BlockDevice.update m o with
        | mk m2 e =>
          have hrw : updateStep (c0 :: cs0) o = (pre ++ m2 :: post, e) := by
            unfold updateStep; dsimp only; rw [hs]; dsimp only; rw [hu]
          have hopv : dget o.attrs "path" = some pv := hpv
          have hmpv : dget m.data "path" = some pv := by rw [hmpath, hpv]
          have hm2 : dget m2.data "path" = dget m.data "path" := by
            have hst := update_path_stable m o hwf pv hopv hmpv
            rw [hu] at hst
            exact hst.trans hmpv.symm
          rw [hrw, hsplit]
          refine ⟨by simp, ?_, ?_⟩
          · intro i hi hi2
            exact getElem_shape_stable hm2 i hi hi2
          · intro i hi hi2 hne
            refine getElem_shape_untouched i hi hi2 ?_
            rw [hmpath]
            exact hne

theorem updateChildren_stable : ∀ (objs : DevObjList) (cs : List BlockDevice),
    (∀ o ∈ objs.toList, nodupKeys o.attrs) →
    cs.length ≤ (BlockDevice.updateChildren cs objs).1.length ∧
    (∀ i (hi : i < cs.length)
       (hi2 : i < (BlockDevice.updateChildren cs objs).1.length),
      dget ((BlockDevice.updateChildren cs objs).1[i]).data "path"
        = dget (cs[i]).data "path") ∧
    (∀ i (hi : i < cs.length)
       (hi2 : i < (BlockDevice.updateChildren cs objs).1.length),
      (∀ o ∈ objs.toList,
        dget o.attrs "path" ≠ dget (cs[i]).data "path") →
      (BlockDevice.updateChildren cs objs).1[i] = cs[i])
  | .nil, cs, hwf =>
    ⟨le_refl _, fun i hi hi2 => rfl, fun i hi hi2 _ => rfl⟩
  | .cons o rest, cs, hwf => by
    have ih := updateChildren_stable rest
    have hwfo : nodupKeys o.attrs := hwf o (by simp [DevObjList.toList])
    have hwfr : ∀ o2 ∈ rest.toList, nodupKeys o2.attrs := fun o2 h2 =>
      hwf o2 (by simp [DevObjList.toList, h2])
    obtain ⟨hl, hstab, hunt⟩ := updateStep_stable cs o hwfo
    rw [updateChildren_cons]
    cases hst : updateStep cs o with
    | mk cs2 e =>
      rw [hst] at hl hstab hunt
      cases e with
      | some er =>
        dsimp only
        refine ⟨hl, hstab, ?_⟩
        intro i hi hi2 hcond
        exact hunt i hi hi2
          (fun hc => hcond o (by simp [DevObjList.toList]) hc.symm)
      | none =>
        dsimp only
        obtain ⟨ihl, ihstab, ihunt⟩ := ih cs2 hwfr
        refine ⟨le_trans hl ihl, ?_, ?_⟩
        · intro i hi hi2
          have hi3 : i < cs2.length := lt_of_lt_of_le hi hl
          rw [ihstab i hi3 hi2, hstab i hi hi3]
        · intro i hi hi2 hcond
          have hi3 : i < cs2.length := lt_of_lt_of_le hi hl
          have h1 : cs2[i] = cs[i] := hunt i hi hi3
            (fun hc => hcond o (by simp [DevObjList.toList]) hc.symm)
          have h2 : (BlockDevice.updateChildren cs2 rest).1[i] = cs2[i] := by
            refine ihunt i hi3 hi2 ?_
            intro o2 ho2
            rw [h1]
            exact hcond o2 (by simp [DevObjList.toList, ho2])
          rw [h2, h1]

/-- C10: the child list of a `BlockDevice` is grow-only under
reconciliation — `update()` with an incoming children list never
removes or reorders existing children: the reconciled list is at least
as long, the device at each pre-existing position keeps its path (it is
updated in place when an incoming entry matches that path), and a child
whose path matches no incoming entry is left exactly as it was, even
when absent from the incoming list; new entries are only appended. -/
theorem c10_children_grow_only (bd : BlockDevice) (obj : DevObj)
    (hwf : ∀ o ∈ obj.children, nodupKeys o.attrs) :
    bd.children.length ≤ (BlockDevice.update bd obj).1.children.length ∧
    (∀ i (hi : i < bd.children.length)
       (hi2 : i < (BlockDevice.update bd obj).1.children.length),
      dget ((BlockDevice.update bd obj).1.children[i]).data "path"
        = dget (bd.children[i]).data "path") ∧
    (∀ i (hi : i < bd.children.length)
       (hi2 : i < (BlockDevice.update bd obj).1.children.length),
      (∀ o ∈ obj.children,
        dget o.attrs "path" ≠ dget (bd.children[i]).data "path") →
      (BlockDevice.update bd obj).1.children[i] = bd.children[i]) := by
  cases obj with
  | mk attrs ch =>
    have hwf2 : ∀ o ∈ ch.toList, nodupKeys o.attrs := hwf
    rw [update_eq]
    cases hf : attrs.find? (badPair bd.data) with
    | some kv =>
      dsimp only
      exact ⟨le_refl _, fun i hi hi2 => rfl, fun i hi hi2 _ => rfl⟩
    | none =>
      obtain ⟨hl, hstab, hunt⟩ := updateChildren_stable ch bd.children hwf2
      cases hch : BlockDevice.updateChildren bd.children ch with
      | mk cs e =>
        rw [hch] at hl hstab hunt
        cases e with
        | some er =>
          dsimp only
          exact ⟨hl, hstab, fun i hi hi2 hcond => hunt i hi hi2 hcond⟩
        | none =>
          dsimp only
          exact ⟨hl, hstab, fun i hi hi2 hcond => hunt i hi hi2 hcond⟩

/-- Witness for C10: reconciling the one-child device with an incoming
record holding a matching child (updated in place) and a new one
(appended) keeps position 0 and appends at position 1. -/
theorem c10_children_grow_only_witness :
    nestedBD.children.length
        ≤ (BlockDevice.update nestedBD freshDiskObjTwoKids).1.children.length ∧
    dget (((BlockDevice.update nestedBD freshDiskObjTwoKids).1.children).get
        ⟨0, by decide⟩).data "path"
      = dget (nestedBD.children.get ⟨0, by decide⟩).data "path" := by
  obtain ⟨h1, h2, h3⟩ := c10_children_grow_only nestedBD freshDiskObjTwoKids
    (by decide)
  refine ⟨h1, ?_⟩
  have hx := h2 0 (by decide) (by decide)
  simpa using hx

/-! ## Command-layer and orchestrator lemmas -/

theorem update_success_data {bd bd' : BlockDevice}
    {attrs : List (String × JVal)} {ch : DevObjList}
    (h : BlockDevice.update bd (.mk attrs ch) = (bd', none)) :
    bd'.data = dupdate bd.data attrs := by
  rw [update_eq] at h
  cases hf : attrs.find? (badPair bd.data) with
  | some kv => rw [hf] at h; simp at h
  | none =>
    rw [hf] at h
    cases hch : BlockDevice.updateChildren bd.children ch with
    | mk cs e =>
      rw [hch] at h
      cases e with
      | some er => simp at h
      | none =>
        simp only [Prod.mk.injEq, and_true] at h
        rw [← h]
        rfl

theorem update_success_incoming {bd bd' : BlockDevice}
    {attrs : List (String × JVal)} {ch : DevObjList}
    (h : BlockDevice.update bd (.mk attrs ch) = (bd', none))
    (hnd : nodupKeys attrs) (k : String) (v : JVal)
    (hk : dget attrs k = some v) : dget bd'.data k = some v := by
  rw [update_success_data h, dget_dupdate, dget_reverse_of_nodup hnd, hk]
  rfl

theorem DevObjList.toList_ofList : ∀ l : List DevObj,
    (DevObjList.ofList l).toList = l
  | [] => rfl
  | o :: rest => by
    show o :: (DevObjList.ofList rest).toList = o :: rest
    rw [DevObjList.toList_ofList rest]

theorem wFind_attrs {w : World} {p : String} {d : DevObj}
    (h : wFind w p = some d) :
    nodupKeys d.attrs ∧ dget d.attrs "path" = some (.s p) := by
  unfold wFind at h
  by_cases hp : p = w.disk.path
  · rw [if_pos hp] at h
    injection h with h
    subst hp
    rw [← h]
    constructor
    · show List.Nodup ["path", "type", "fstype"]
      decide
    · rfl
  · rw [if_neg hp] at h
    cases hq : w.disk.parts.find? (fun q => q.path == p) with
    | none => rw [hq] at h; simp at h
    | some q =>
      rw [hq] at h
      have hqp : q.path = p := by
        have hb := List.find?_some hq
        simpa using hb
      simp only [Option.map_some', Option.some.injEq] at h
      rw [← h]
      constructor
      · show List.Nodup ["path", "type", "fstype"]
        decide
      · show some (JVal.s q.path) = some (JVal.s p)
        rw [hqp]

theorem sync_eq {bd : BlockDevice} {w : World} {p : String} {d : DevObj}
    (hpath : dget bd.data "path" = some (.s p))
    (hfind : wFind w p = some d) :
    BlockDevice.sync bd w
      = (((BlockDevice.update bd d).1, w.addTrace (lsblkCmd p)),
         (BlockDevice.update bd d).2) := by
  have hps : bd.pathStr = some p := by
    unfold BlockDevice.pathStr; rw [hpath]
  unfold BlockDevice.sync
  rw [hps]
  dsimp only
  have hls : wLsblkOne w p = (w.addTrace (lsblkCmd p), .ok d) := by
    unfold wLsblkOne; dsimp only; rw [hfind]
  rw [hls]

/-- C1 fails on the code: on a freshly attached empty device,
`Storage.format` with the repository's own three-entry layout
(vfat/swap/ext4) raises `BlockDeviceError` while handling the second
entry — its inner loop calls `add_filesystem` on *every* child, and the
already-formatted first partition is refused — leaving partition 2
unformatted; with a single-entry layout the same code completes and
formats the one partition, isolating the inner loop as the defect. -/
theorem c1_format_raises_on_multi_entry_layout :
    (Storage.format layout3 freshLoopBD freshLoopWorld).2
        = some (.blockDeviceError
            "Cannot format a formatted block device: /dev/loop0p1.") ∧
    (Storage.format layout3 freshLoopBD freshLoopWorld).1.2.disk.parts.map
        (fun q => q.fstype) = [some "vfat", none] ∧
    (Storage.format (layout3.take 1) freshLoopBD freshLoopWorld).2 = none ∧
    (Storage.format (layout3.take 1) freshLoopBD
        freshLoopWorld).1.2.disk.parts.map (fun q => q.fstype)
      = [some "vfat"] :=
  ⟨rfl, rfl, rfl, rfl⟩

/-- C6: a `BlockDevice` whose kernel-reported filesystem type is
present refuses `add_filesystem` with `BlockDeviceError`, and the only
external command run is the `lsblk` of the sync — no `mkfs`/`mkswap`
is invoked; in particular a second `add_filesystem` on the same
partition is refused. -/
theorem c6_add_filesystem_refuses_formatted (bd : BlockDevice) (w : World)
    (fs : FsSpec) (p t : String) (d : DevObj)
    (hpath : dget bd.data "path" = some (.s p))
    (hfind : wFind w p = some d)
    (hfs : dget d.attrs "fstype" = some (.s t))
    (hup : (BlockDevice.update bd d).2 = none) :
    BlockDevice.add_filesystem bd w fs
      = (((BlockDevice.update bd d).1, w.addTrace (lsblkCmd p)),
         some (.blockDeviceError
           ("Cannot format a formatted block device: " ++ p ++ "."))) ∧
    (w.addTrace (lsblkCmd p)).trace.filter isMkfsCmd
      = w.trace.filter isMkfsCmd := by
  obtain ⟨hnd, hdp⟩ := wFind_attrs hfind
  have hsync := sync_eq hpath hfind
  constructor
  · cases d with
    | mk attrs ch =>
      cases hu : BlockDevice.update bd (.mk attrs ch) with
      | mk bd1 e1 =>
        rw [hu] at hup
        have he1 : e1 = none := hup
        subst he1
        rw [hu] at hsync
        have hfst : dget bd1.data "fstype" = some (.s t) :=
          update_success_incoming hu hnd "fstype" (.s t) hfs
        have hpd : dget bd1.data "path" = some (.s p) :=
          update_success_incoming hu hnd "path" (.s p) hdp
        have hbp : bd1.pathStr = some p := by
          unfold BlockDevice.pathStr; rw [hpd]
        have hjp : jPresent (dget bd1.data "fstype") = true := by
          rw [hfst]; rfl
        unfold BlockDevice.add_filesystem
        rw [hsync]
        dsimp only
        rw [if_pos hjp, hbp]
        rfl
  · show (w.trace ++ [lsblkCmd p]).filter isMkfsCmd = w.trace.filter isMkfsCmd
    rw [List.filter_append]
    simp [isMkfsCmd, lsblkCmd]

/-- Witness for C6: `add_filesystem` on the already-formatted partition
`/dev/loop0p1` (fstype `vfat`) raises `BlockDeviceError` and runs no
filesystem-creation command. -/
theorem c6_add_filesystem_refuses_formatted_witness :
    BlockDevice.add_filesystem fmtPartBD fmtWorld ⟨"ext4", none, "-L", [], "/"⟩
      = (((BlockDevice.update fmtPartBD
            (partObj ⟨"/dev/loop0p1", "ef00", some "vfat"⟩)).1,
          fmtWorld.addTrace (lsblkCmd "/dev/loop0p1")),
         some (.blockDeviceError
           "Cannot format a formatted block device: /dev/loop0p1.")) ∧
    (fmtWorld.addTrace (lsblkCmd "/dev/loop0p1")).trace.filter isMkfsCmd
      = fmtWorld.trace.filter isMkfsCmd :=
  c6_add_filesystem_refuses_formatted fmtPartBD fmtWorld _ "/dev/loop0p1"
    "vfat" (partObj ⟨"/dev/loop0p1", "ef00", some "vfat"⟩) rfl rfl rfl rfl

/-- C7: a `BlockDevice` whose kernel-reported kind is neither `disk`
nor `loop` (e.g. `part`) refuses `add_part` with `BlockDeviceError`,
and the only external command run is the `lsblk` of the sync — no
`sgdisk` partition-create is invoked. -/
theorem c7_add_part_refuses_non_disk (bd : BlockDevice) (w : World)
    (s e tc : String) (p : String) (d : DevObj) (t : JVal)
    (hpath : dget bd.data "path" = some (.s p))
    (hfind : wFind w p = some d)
    (ht : dget d.attrs "type" = some t)
    (ht1 : t ≠ .s "disk") (ht2 : t ≠ .s "loop")
    (hup : (BlockDevice.update bd d).2 = none) :
    BlockDevice.add_part bd w s e tc
      = (((BlockDevice.update bd d).1, w.addTrace (lsblkCmd p)),
         some (.blockDeviceError "Only disks may be partitioned.")) ∧
    (w.addTrace (lsblkCmd p)).trace.filter isSgdiskCmd
      = w.trace.filter isSgdiskCmd := by
  obtain ⟨hnd, hdp⟩ := wFind_attrs hfind
  have hsync := sync_eq hpath hfind
  constructor
  · cases d with
    | mk attrs ch =>
      cases hu : BlockDevice.update bd (.mk attrs ch) with
      | mk bd1 e1 =>
        rw [hu] at hup
        have he1 : e1 = none := hup
        subst he1
        rw [hu] at hsync
        have htd : dget bd1.data "type" = some t :=
          update_success_incoming hu hnd "type" t ht
        unfold BlockDevice.add_part
        rw [hsync]
        dsimp only
        rw [htd]
        dsimp only
        rw [if_neg (fun hc => hc.elim ht1 ht2)]
  · show (w.trace ++ [lsblkCmd p]).filter isSgdiskCmd
        = w.trace.filter isSgdiskCmd
    rw [List.filter_append]
    simp [isSgdiskCmd, lsblkCmd]

/-- Witness for C7: `add_part` on the partition `/dev/loop0p1`
(kind `part`) raises `BlockDeviceError` and runs no `sgdisk`. -/
theorem c7_add_part_refuses_non_disk_witness :
    BlockDevice.add_part fmtPartBD fmtWorld "" "+1G" "8300"
      = (((BlockDevice.update fmtPartBD
            (partObj ⟨"/dev/loop0p1", "ef00", some "vfat"⟩)).1,
          fmtWorld.addTrace (lsblkCmd "/dev/loop0p1")),
         some (.blockDeviceError "Only disks may be partitioned.")) ∧
    (fmtWorld.addTrace (lsblkCmd "/dev/loop0p1")).trace.filter isSgdiskCmd
      = fmtWorld.trace.filter isSgdiskCmd :=
  c7_add_part_refuses_non_disk fmtPartBD fmtWorld "" "+1G" "8300"
    "/dev/loop0p1" (partObj ⟨"/dev/loop0p1", "ef00", some "vfat"⟩)
    (.s "part") rfl rfl rfl (by decide) (by decide) rfl

/-- C8: `create_partition` computes the next 1-based ordinal as
(children currently observed via `lsblk`) + 1 and passes that same
ordinal in both the `--new` and `--typecode` arguments of the one
`sgdisk` invocation, after which exactly one new unformatted partition
with that ordinal's name and the requested typecode exists; the count
is read from the current kernel state, so the ordinal is correct only
under strictly sequential creation. -/
theorem c8_partition_ordinal (w : World) (s e tc : String) :
    create_partition w w.disk.path s e tc
      = ({ disk := { w.disk with parts := w.disk.parts
              ++ [⟨partName w.disk.path (w.disk.parts.length + 1), tc, none⟩] },
           trace := w.trace ++ [partprobeCmd w.disk.path, lsblkCmd w.disk.path,
             sgdiskCmd (toString (w.disk.parts.length + 1)) s e tc
               w.disk.path] }, none) ∧
    (diskObj w.disk).children.length = w.disk.parts.length := by
  have hch : (diskObj w.disk).children.length = w.disk.parts.length := by
    show (DevObjList.ofList (w.disk.parts.map partObj)).toList.length = _
    rw [DevObjList.toList_ofList, List.length_map]
  refine ⟨?_, hch⟩
  have hfind : wFind w w.disk.path = some (diskObj w.disk) := by
    unfold wFind; rw [if_pos rfl]
  unfold create_partition
  have hpp : wPartprobe w w.disk.path
      = (w.addTrace (partprobeCmd w.disk.path), none) := by
    unfold wPartprobe
    dsimp only
    rw [hfind]
    rfl
  rw [hpp]
  dsimp only
  have hfind2 : wFind (w.addTrace (partprobeCmd w.disk.path)) w.disk.path
      = some (diskObj w.disk) := hfind
  have hls : wLsblkOne (w.addTrace (partprobeCmd w.disk.path)) w.disk.path
      = ((w.addTrace (partprobeCmd w.disk.path)).addTrace
          (lsblkCmd w.disk.path), .ok (diskObj w.disk)) := by
    unfold wLsblkOne
    dsimp only
    rw [hfind2]
  rw [hls]
  dsimp only
  rw [hch]
  simp [wSgdisk, World.addTrace]

/-- C4 fails as stated: a failed partition-table rescan raises
`BlockDeviceError`, not `ProbeError` — no `ProbeError` class exists
anywhere in the `exceptions.py` taxonomy. -/
theorem c4_counterexample :
    partprobe "/dev/loop0" (.fail 1)
        = some (.blockDeviceError
            "Unable to probe /dev/loop0 for partitions.") ∧
    pyErrClass (.blockDeviceError "Unable to probe /dev/loop0 for partitions.")
        = "BlockDeviceError" ∧
    "ProbeError" ∉ sysbuilderExceptions.map Prod.fst ∧
    ("BlockDeviceError" : String) ≠ "ProbeError" :=
  ⟨rfl, rfl, by decide, by decide⟩

/-- C4 (amended): whenever a partition-table rescan fails (the external
rescan exits non-zero), the Command Layer raises `BlockDeviceError`, a
member of the error taxonomy deriving from the single root storage
error `_SysBuilderError`. -/
theorem c4_partprobe_failure_raises_blockdeviceerror
    (devpath : String) (c : Int) :
    partprobe devpath (.fail c)
        = some (.blockDeviceError
            ("Unable to probe " ++ devpath ++ " for partitions.")) ∧
    derivesFromRoot "BlockDeviceError" = true :=
  ⟨rfl, rfl⟩

/-- C5 fails as stated: a single-device enumeration exiting with a
non-zero code other than 32 re-raises the raw `CalledProcessError`
(which is not in the sysbuilder taxonomy), instead of mapping it to
`BlockDeviceError`. -/
theorem c5_counterexample :
    list_one "/dev/sda" (.fail 1) = .error (.calledProcessError 1) ∧
    pyErrClass (.calledProcessError 1) = "CalledProcessError" ∧
    "CalledProcessError" ∉ sysbuilderExceptions.map Prod.fst :=
  ⟨rfl, rfl, by decide⟩

/-- C5 (amended): single-device enumeration maps exit code 32 to
`BlockDeviceNotFoundError` and re-raises the raw process error for any
other non-zero exit; whole-system enumeration maps exit code 64 to
`BlockDeviceError` and re-raises the raw process error otherwise. -/
theorem c5_enumeration_exit_code_dispatch (devpath : String) (c : Int)
    (hc : c ≠ 0) :
    list_one devpath (.fail c)
      = (if c = 32 then .error (.blockDeviceNotFoundError devpath)
         else .error (.calledProcessError c)) ∧
    list_all (.fail c)
      = (if c = 64 then
           .error (.blockDeviceError "Unable to retrieve block devices.")
         else .error (.calledProcessError c)) :=
  ⟨rfl, rfl⟩

/-- Witness for C5 (amended): exit 32 on `list_one` is not-found, exit
2 on `list_all` is the raw process error. -/
theorem c5_enumeration_exit_code_dispatch_witness :
    list_one "/dev/sda" (.fail 32)
        = .error (.blockDeviceNotFoundError "/dev/sda") ∧
    list_all (.fail 2) = .error (.calledProcessError 2) := by
  constructor
  · have h := (c5_enumeration_exit_code_dispatch "/dev/sda" 32 (by decide)).1
    simpa using h
  · have h := (c5_enumeration_exit_code_dispatch "/dev/sda" 2 (by decide)).2
    simpa using h

/-! ## Lexicographic comparison lemmas for the mount model -/

theorem charListLe_total : ∀ xs ys : List Char,
    charListLe xs ys = true ∨ charListLe ys xs = true
  | [], _ => by left; rfl
  | _ :: _, [] => by right; rfl
  | x :: xs, y :: ys => by
    by_cases h : x = y
    · subst h
      rcases charListLe_total xs ys with h1 | h1
      · left; simpa [charListLe] using h1
      · right; simpa [charListLe] using h1
    · rcases lt_trichotomy x y with hlt | heq | hgt
      · left; simp [charListLe, h, hlt]
      · exact absurd heq h
      · right
        have h2 : ¬ y = x := fun hc => h hc.symm
        simp [charListLe, h2, hgt]

theorem charListLe_trans : ∀ xs ys zs : List Char,
    charListLe xs ys = true → charListLe ys zs = true →
    charListLe xs zs = true
  | [], _, _, _, _ => rfl
  | _ :: _, [], _, h1, _ => by simp [charListLe] at h1
  | _ :: _, _ :: _, [], _, h2 => by simp [charListLe] at h2
  | x :: xs, y :: ys, z :: zs, h1, h2 => by
    by_cases hxy : x = y
    · subst hxy
      by_cases hxz : x = z
      · subst hxz
        simp only [charListLe, if_pos rfl] at h1 h2 ⊢
        exact charListLe_trans xs ys zs h1 h2
      · simp only [charListLe, if_pos rfl] at h1
        simp only [charListLe, if_neg hxz] at h2 ⊢
        exact h2
    · by_cases hyz : y = z
      · subst hyz
        simp only [charListLe, if_neg hxy] at h1 ⊢
        exact h1
      · simp only [charListLe, if_neg hxy, if_neg hyz,
          decide_eq_true_eq] at h1 h2
        by_cases hxz : x = z
        · subst hxz
          exact absurd (lt_trans h1 h2) (lt_irrefl x)
        · simp only [charListLe, if_neg hxz, decide_eq_true_eq]
          exact lt_trans h1 h2

theorem charListLe_antisymm : ∀ xs ys : List Char,
    charListLe xs ys = true → charListLe ys xs = true → xs = ys
  | [], [], _, _ => rfl
  | [], _ :: _, _, h2 => by simp [charListLe] at h2
  | _ :: _, [], h1, _ => by simp [charListLe] at h1
  | x :: xs, y :: ys, h1, h2 => by
    by_cases h : x = y
    · subst h
      simp only [charListLe, if_pos rfl] at h1 h2
      rw [charListLe_antisymm xs ys h1 h2]
    · have h2x : ¬ y = x := fun hc => h hc.symm
      simp only [charListLe, if_neg h, if_neg h2x,
        decide_eq_true_eq] at h1 h2
      exact absurd (lt_trans h1 h2) (lt_irrefl x)

theorem charListLe_append : ∀ xs r : List Char,
    charListLe xs (xs ++ r) = true
  | [], _ => rfl
  | x :: xs, r => by
    simp only [List.cons_append, charListLe, if_pos rfl]
    exact charListLe_append xs r

theorem strLe_total (s t : String) : strLe s t = true ∨ strLe t s = true :=
  charListLe_total s.data t.data

theorem strLe_trans {s t u : String} (h1 : strLe s t = true)
    (h2 : strLe t u = true) : strLe s u = true :=
  charListLe_trans s.data t.data u.data h1 h2

theorem strLe_antisymm {s t : String} (h1 : strLe s t = true)
    (h2 : strLe t s = true) : s = t := by
  have hd := charListLe_antisymm s.data t.data h1 h2
  cases s with
  | mk ds =>
    cases t with
    | mk dt =>
      have hdd : ds = dt := by simpa using hd
      rw [hdd]

theorem strLe_self_append (s r : String) : strLe s (s ++ r) = true := by
  show charListLe s.data (s ++ r).data = true
  rw [String.data_append s r]
  exact charListLe_append s.data r.data

theorem mem_insertByKey {α : Type} {key : α → String} {x a : α} :
    ∀ {l : List α}, x ∈ insertByKey key a l ↔ x = a ∨ x ∈ l
  | [] => by simp [insertByKey]
  | b :: bs => by
    unfold insertByKey
    by_cases h : strLe (key a) (key b) = true
    · rw [if_pos h]
      simp [List.mem_cons]
    · rw [if_neg h]
      rw [List.mem_cons, mem_insertByKey (l := bs), List.mem_cons]
      tauto

theorem mem_sortByKey {α : Type} {key : α → String} {x : α} :
    ∀ {l : List α}, x ∈ sortByKey key l ↔ x ∈ l
  | [] => Iff.rfl
  | a :: as => by
    unfold sortByKey
    rw [mem_insertByKey, mem_sortByKey (l := as), List.mem_cons]

theorem pairwise_insertByKey {α : Type} {key : α → String} {a : α} :
    ∀ {l : List α},
    List.Pairwise (fun x y => strLe (key x) (key y) = true) l →
    List.Pairwise (fun x y => strLe (key x) (key y) = true)
      (insertByKey key a l)
  | [], _ => by simp [insertByKey]
  | b :: bs, h => by
    unfold insertByKey
    rcases List.pairwise_cons.mp h with ⟨hb, hbs⟩
    by_cases hab : strLe (key a) (key b) = true
    · rw [if_pos hab]
      refine List.pairwise_cons.mpr ⟨?_, h⟩
      intro x hx
      rcases List.mem_cons.mp hx with hxb | hxbs
      · rw [hxb]; exact hab
      · exact strLe_trans hab (hb x hxbs)
    · rw [if_neg hab]
      refine List.pairwise_cons.mpr ⟨?_, pairwise_insertByKey hbs⟩
      intro x hx
      rcases mem_insertByKey.mp hx with hxa | hxbs
      · rw [hxa]
        rcases strLe_total (key a) (key b) with h1 | h1
        · exact absurd h1 hab
        · exact h1
      · exact hb x hxbs

theorem pairwise_sortByKey {α : Type} (key : α → String) :
    ∀ (l : List α),
    List.Pairwise (fun x y => strLe (key x) (key y) = true) (sortByKey key l)
  | [] => List.Pairwise.nil
  | a :: as => pairwise_insertByKey (pairwise_sortByKey key as)


theorem mount_tag_swap (root : String) : ∀ (layout : List LayoutEntry)
    (children : List BlockDevice) (i : Nat) (hi : i < layout.length)
    (hic : i < children.length)
    (hit : i < ((Storage.mount root layout children).2).length),
    (layout.get ⟨i, hi⟩).filesystem.mountpoint = "swap" →
    dget (((Storage.mount root layout children).2).get ⟨i, hit⟩).data
        "host_mountpoint" = some (.s "swap")
  | [], _, i, hi, _, _, _ => absurd hi (by simp)
  | _ :: _, [], i, _, hic, _, _ => absurd hic (by simp)
  | l0 :: lrest, c0 :: crest, 0, hi, hic, hit, hswap => by
    show dget (if l0.filesystem.mountpoint = "swap" then
        setData c0 "host_mountpoint" (.s "swap")
      else
        setData c0 "host_mountpoint"
          (.s (hostMountPath root l0.filesystem.mountpoint))).data
        "host_mountpoint" = some (.s "swap")
    have hswap0 : l0.filesystem.mountpoint = "swap" := hswap
    rw [if_pos hswap0]
    show dget (dset c0.data "host_mountpoint" (.s "swap")) "host_mountpoint"
        = some (.s "swap")
    rw [dget_dset]
    simp
  | l0 :: lrest, c0 :: crest, i + 1, hi, hic, hit, hswap => by
    show dget (((Storage.mount root lrest crest).2).get
        ⟨i, Nat.lt_of_succ_lt_succ hit⟩).data "host_mountpoint"
        = some (.s "swap")
    exact mount_tag_swap root lrest crest i (Nat.lt_of_succ_lt_succ hi)
      (Nat.lt_of_succ_lt_succ hic) (Nat.lt_of_succ_lt_succ hit) hswap

/-- C2 (spec-modelled `Storage.mount`): the non-swap layout entries'
host mount paths are mounted in character-lexicographic order, so a
parent path is always mounted before any of its proper descendants
(a path of which it is a strict prefix); an entry whose mountpoint is
the literal `"swap"` contributes no mount command — its child device is
instead tagged with `host_mountpoint == "swap"`. -/
theorem c2_mount_lexicographic (root : String) (layout : List LayoutEntry)
    (children : List BlockDevice)
    (hdistinct : List.Pairwise (· ≠ ·)
      (children.map (fun c => c.pathStr.getD ""))) :
    List.Pairwise (fun a b => strLe a b = true)
      (((Storage.mount root layout children).1).map (fun c => c.getD 2 "")) ∧
    (∀ i j (hi : i < ((Storage.mount root layout children).1).length)
       (hj : j < ((Storage.mount root layout children).1).length),
       ((((Storage.mount root layout children).1).get ⟨i, hi⟩).getD 2 "")
           ≠ ((((Storage.mount root layout children).1).get ⟨j, hj⟩).getD 2 "") →
       (∃ suffix,
         ((((Storage.mount root layout children).1).get ⟨j, hj⟩).getD 2 "")
           = ((((Storage.mount root layout children).1).get ⟨i, hi⟩).getD 2 "")
             ++ suffix) →
       i < j) ∧
    (∀ i (hi : i < layout.length) (hic : i < children.length)
       (hit : i < ((Storage.mount root layout children).2).length),
       (layout.get ⟨i, hi⟩).filesystem.mountpoint = "swap" →
       dget (((Storage.mount root layout children).2).get ⟨i, hit⟩).data
           "host_mountpoint" = some (.s "swap") ∧
       ∀ c ∈ (Storage.mount root layout children).1,
         c.getD 1 "" ≠ (children.get ⟨i, hic⟩).pathStr.getD "") := by
  have hr1 : (Storage.mount root layout children).1
      = List.map (fun pc : LayoutEntry × BlockDevice =>
          mountCmd (pc.2.pathStr.getD "")
            (hostMountPath root pc.1.filesystem.mountpoint))
        (sortByKey (fun pc : LayoutEntry × BlockDevice =>
            hostMountPath root pc.1.filesystem.mountpoint)
          ((layout.zip children).filter
            (fun pc => pc.1.filesystem.mountpoint != "swap"))) := rfl
  have hr2 : (Storage.mount root layout children).2
      = List.map (fun pc : LayoutEntry × BlockDevice =>
          if pc.1.filesystem.mountpoint = "swap" then
            setData pc.2 "host_mountpoint" (.s "swap")
          else
            setData pc.2 "host_mountpoint"
              (.s (hostMountPath root pc.1.filesystem.mountpoint)))
        (layout.zip children) := rfl
  have hmap : (((Storage.mount root layout children).1).map
        (fun c => c.getD 2 ""))
      = List.map (fun pc : LayoutEntry × BlockDevice =>
          hostMountPath root pc.1.filesystem.mountpoint)
        (sortByKey (fun pc : LayoutEntry × BlockDevice =>
            hostMountPath root pc.1.filesystem.mountpoint)
          ((layout.zip children).filter
            (fun pc => pc.1.filesystem.mountpoint != "swap"))) := by
    rw [hr1, List.map_map]
    rfl
  have hsorted : List.Pairwise (fun a b => strLe a b = true)
      (((Storage.mount root layout children).1).map (fun c => c.getD 2 "")) := by
    rw [hmap]
    exact (pairwise_sortByKey _ _).map _ (fun a b h => h)
  refine ⟨hsorted, ?_, ?_⟩
  · -- parent is mounted before descendant
    intro i j hi hj hne hpre
    have hlen : (((Storage.mount root layout children).1).map
        (fun c => c.getD 2 "")).length
        = ((Storage.mount root layout children).1).length := List.length_map ..
    rcases Nat.lt_trichotomy i j with h | h | h
    · exact h
    · exfalso
      apply hne
      cases h
      rfl
    · exfalso
      have hij := List.pairwise_iff_get.mp hsorted ⟨j, by rw [hlen]; exact hj⟩
        ⟨i, by rw [hlen]; exact hi⟩ h
      rw [List.get_map, List.get_map] at hij
      obtain ⟨suffix, hsuf⟩ := hpre
      have hle2 : strLe ((((Storage.mount root layout children).1).get
            ⟨i, hi⟩).getD 2 "")
          ((((Storage.mount root layout children).1).get ⟨j, hj⟩).getD 2 "")
          = true := by
        rw [hsuf]
        exact strLe_self_append _ _
      exact hne (strLe_antisymm hle2 hij)
  · -- swap entries are tagged, never mounted
    intro i hi hic hit hswap
    have hpl : i < (layout.zip children).length := by
      rw [hr2, List.length_map] at hit
      exact hit
    constructor
    · exact mount_tag_swap root layout children i hi hic hit hswap
    · intro c hc
      rw [hr1] at hc
      obtain ⟨pc, hpcmem, hpceq⟩ := List.mem_map.mp hc
      have hpc2 : pc ∈ (layout.zip children).filter
          (fun pc => pc.1.filesystem.mountpoint != "swap") :=
        mem_sortByKey.mp hpcmem
      obtain ⟨hpcz, hpcns⟩ := List.mem_filter.mp hpc2
      have hpcns2 : pc.1.filesystem.mountpoint ≠ "swap" := by
        simpa using hpcns
      obtain ⟨⟨j, hjlen⟩, hjeq⟩ := List.mem_iff_get.mp hpcz
      have hjl : j < layout.length := by
        rw [List.length_zip] at hjlen
        omega
      have hjc : j < children.length := by
        rw [List.length_zip] at hjlen
        omega
      have hjz : pc = (layout.get ⟨j, hjl⟩, children.get ⟨j, hjc⟩) := by
        rw [← hjeq]
        simp [List.get_zip]
      have hdev : c.getD 1 "" = pc.2.pathStr.getD "" := by
        rw [← hpceq]
        rfl
      rw [hdev, hjz]
      dsimp only
      have hij : j ≠ i := by
        intro hc2
        apply hpcns2
        rw [hjz]
        dsimp only
        subst hc2
        exact hswap
      have hpw := List.pairwise_iff_get.mp hdistinct
      have hlc : (children.map (fun c => c.pathStr.getD "")).length
          = children.length := List.length_map ..
      rcases Nat.lt_or_ge j i with hlt | hge
      · have hd := hpw ⟨j, by rw [hlc]; exact hjc⟩ ⟨i, by rw [hlc]; exact hic⟩
          hlt
        rw [List.get_map, List.get_map] at hd
        exact hd
      · have hlt2 : i < j := lt_of_le_of_ne hge (fun hc2 => hij hc2.symm)
        have hd := hpw ⟨i, by rw [hlc]; exact hic⟩ ⟨j, by rw [hlc]; exact hjc⟩
          hlt2
        rw [List.get_map, List.get_map] at hd
        exact fun hc2 => hd hc2.symm

/-- Witness for C2: with mountpoints arriving as /var, swap, /,
/var/log the mount commands are sorted lexicographically, parents
precede descendants, and the swap entry is tagged and never mounted. -/
theorem c2_mount_lexicographic_witness :
    List.Pairwise (fun a b => strLe a b = true)
      (((Storage.mount "/mnt/scratch" mountLayout4 mountKids4).1).map
        (fun c => c.getD 2 "")) ∧
    (∀ i j (hi : i < ((Storage.mount "/mnt/scratch" mountLayout4
          mountKids4).1).length)
       (hj : j < ((Storage.mount "/mnt/scratch" mountLayout4
          mountKids4).1).length),
       ((((Storage.mount "/mnt/scratch" mountLayout4 mountKids4).1).get
           ⟨i, hi⟩).getD 2 "")
           ≠ ((((Storage.mount "/mnt/scratch" mountLayout4
              mountKids4).1).get ⟨j, hj⟩).getD 2 "") →
       (∃ suffix,
         ((((Storage.mount "/mnt/scratch" mountLayout4 mountKids4).1).get
             ⟨j, hj⟩).getD 2 "")
           = ((((Storage.mount "/mnt/scratch" mountLayout4
               mountKids4).1).get ⟨i, hi⟩).getD 2 "") ++ suffix) →
       i < j) ∧
    (∀ i (hi : i < mountLayout4.length) (hic : i < mountKids4.length)
       (hit : i < ((Storage.mount "/mnt/scratch" mountLayout4
          mountKids4).2).length),
       (mountLayout4.get ⟨i, hi⟩).filesystem.mountpoint = "swap" →
       dget (((Storage.mount "/mnt/scratch" mountLayout4
           mountKids4).2).get ⟨i, hit⟩).data "host_mountpoint"
           = some (.s "swap") ∧
       ∀ c ∈ (Storage.mount "/mnt/scratch" mountLayout4 mountKids4).1,
         c.getD 1 "" ≠ (mountKids4.get ⟨i, hic⟩).pathStr.getD "") :=
  c2_mount_lexicographic "/mnt/scratch" mountLayout4 mountKids4 (by decide)
